import Mathlib

/-!
Shallow embedding of the crawler in `src/crawler.py` (the peo.gov.au
"respectful crawler").  The pure URL machinery (the `urllib.parse`
functions exactly as the source uses them), the robots policy object
(`urllib.robotparser.RobotFileParser` as consumed by `load_robots` and the
crawl loop), recursive sitemap resolution (`parse_sitemap`) and the crawl
orchestration loop (`crawl_peo`) are translated into executable Lean
definitions.  External collaborators — the HTTP session, BeautifulSoup
extraction, the filesystem — are modelled as oracle functions supplied in
an environment record; every effect the specification talks about (fetch
calls, extraction calls, file writes, manifest appends, politeness sleeps,
frontier enqueues) is recorded in a per-iteration trace.  All strings are
treated as the ASCII strings the crawler works on; Python's `str.lower`
then coincides with lowercasing character by character.
-/

set_option linter.unusedVariables false

namespace Crawler

/-- Python `str.lower` on the ASCII strings the crawler handles, computed
character by character so the kernel can evaluate it. -/
def pyLower (s : String) : String := String.mk (s.data.map Char.toLower)

/-- Python `str.startswith`, computed on the character lists. -/
def strStarts (s pre : String) : Bool := pre.data.isPrefixOf s.data

/-- Python `str.endswith`, computed on the character lists. -/
def strEnds (s post : String) : Bool := post.data.isSuffixOf s.data

/-- Python `s[:-1]` for a nonempty string. -/
def strDropLast (s : String) : String := String.mk s.data.dropLast

/-- Python `needle in hay` on lists of characters: some tail of `hay`
starts with `needle`. -/
def subIn (needle : List Char) : List Char → Bool
  | [] => needle.isEmpty
  | a :: t => needle.isPrefixOf (a :: t) || subIn needle t

/-- Python `needle in hay` for strings. -/
def strIn (needle hay : String) : Bool := subIn needle.data hay.data

/-- Split a character list at the first occurrence of `c`: `some (before,
after)` without the separator, `none` when `c` does not occur.  This is
Python's `str.split(c, 1)` together with the `c in s` test. -/
def breakAt (c : Char) : List Char → Option (List Char × List Char)
  | [] => none
  | a :: t => if a = c then some ([], t) else (breakAt c t).map fun p => (a :: p.1, p.2)

/-- Index of the last occurrence of `c` (Python `str.rfind`), `none` when
absent. -/
def rfindIdx (c : Char) : List Char → Option Nat
  | [] => none
  | a :: t =>
    match rfindIdx c t with
    | some i => some (i + 1)
    | none => if a = c then some 0 else none

/-- Index of the first occurrence of `c` at or after position `start`
(Python `str.find(c, start)`), `none` when absent. -/
def findIdxFrom (c : Char) (start : Nat) (l : List Char) : Option Nat :=
  ((l.drop start).findIdx? (fun x => x == c)).map (fun i => i + start)

/-- Characters allowed in a URL scheme after the first one: Python
`urllib.parse.scheme_chars` (letters, digits, `+`, `-`, `.`). -/
def schemeChar (c : Char) : Bool :=
  c.isAlpha || c.isDigit || c = '+' || c = '-' || c = '.'

/-- The scheme recognition step of `urlsplit`: take `i = url.find(':')`;
when `i > 0`, the first character is an ASCII letter and everything before
the colon is made of scheme characters, the scheme is split off and
lowercased, otherwise the URL is left whole. -/
def splitScheme (l : List Char) : String × List Char :=
  match breakAt ':' l with
  | none => ("", l)
  | some (before, after) =>
    match h : before with
    | [] => ("", l)
    | c0 :: cs =>
      if c0.isAlpha && cs.all schemeChar then
        (pyLower (String.mk before), after)
      else ("", l)

/-- A character ending the network-location part of a URL (`_splitnetloc`
stops at the first of `/`, `?`, `#`). -/
def netlocDelim (c : Char) : Bool := c = '/' || c = '?' || c = '#'

/-- Python `urllib.parse._splitnetloc(url, 2)`: the characters after the
leading `//` up to the first delimiter, and the remainder starting at that
delimiter. -/
def splitNetloc (l : List Char) : List Char × List Char :=
  let rest := l.drop 2
  (rest.takeWhile (fun c => !netlocDelim c), rest.dropWhile (fun c => !netlocDelim c))

/-- Result of `urllib.parse.urlsplit`. -/
structure SplitResult where
  scheme : String
  netloc : String
  path : String
  query : String
  fragment : String
deriving Repr, DecidableEq

/-- Python `urllib.parse.urlsplit` (with `allow_fragments=True`, as every
call in the crawler uses it): scheme split, then netloc after a leading
`//`, then the fragment after the first `#`, then the query after the
first `?`.  The model covers the ASCII URL strings the crawler handles; the
`ValueError` raised for unbalanced IPv6 brackets is outside the claims and
not modelled. -/
def urlsplit (u : String) : SplitResult :=
  let l := u.data
  let sp := splitScheme l
  let scheme := sp.1
  let l1 := sp.2
  let nl := if ['/', '/'].isPrefixOf l1 then splitNetloc l1 else ([], l1)
  let netloc := nl.1
  let l2 := nl.2
  let fr := match breakAt '#' l2 with
    | some p => (p.1, p.2)
    | none => (l2, [])
  let l3 := fr.1
  let fragment := fr.2
  let qr := match breakAt '?' l3 with
    | some p => (p.1, p.2)
    | none => (l3, [])
  { scheme := scheme, netloc := String.mk netloc, path := String.mk qr.1,
    query := String.mk qr.2, fragment := String.mk fragment }

/-- Result of `urllib.parse.urlparse` (a split result with path parameters
separated out). -/
structure ParseResult where
  scheme : String
  netloc : String
  path : String
  params : String
  query : String
  fragment : String
deriving Repr, DecidableEq

/-- Python `urllib.parse._splitparams`: when the path contains `/`, split
at the first `;` after the last `/` (no split if there is none); otherwise
split at the first `;`.  Only called when the path contains `;`. -/
def splitParams (p : List Char) : List Char × List Char :=
  if p.contains '/' then
    match rfindIdx '/' p with
    | none => (p, [])
    | some j =>
      match findIdxFrom ';' j p with
      | none => (p, [])
      | some i => (p.take i, p.drop (i + 1))
  else
    match breakAt ';' p with
    | none => (p, [])
    | some pr => (pr.1, pr.2)

/-- Python `urllib.parse.urlparse`: `urlsplit`, then path parameters split
off when the path contains `;`. -/
def urlparse (u : String) : ParseResult :=
  let s := urlsplit u
  let pl := s.path.data
  let pp := if pl.contains ';' then splitParams pl else (pl, [])
  { scheme := s.scheme, netloc := s.netloc, path := String.mk pp.1,
    params := String.mk pp.2, query := s.query, fragment := s.fragment }

/-- Python `urllib.parse.urlunsplit`. -/
def urlunsplit (scheme netloc path query fragment : String) : String :=
  let url := path
  let url :=
    if netloc ≠ "" || (url ≠ "" && strStarts url "//") then
      let url := if url ≠ "" && !(strStarts url "/") then "/" ++ url else url
      "//" ++ netloc ++ url
    else url
  let url := if scheme ≠ "" then scheme ++ ":" ++ url else url
  let url := if query ≠ "" then url ++ "?" ++ query else url
  let url := if fragment ≠ "" then url ++ "#" ++ fragment else url
  url

/-- Python `urllib.parse.urlunparse`, the function behind
`ParseResult.geturl`. -/
def urlunparse (p : ParseResult) : String :=
  let path := if p.params ≠ "" then p.path ++ ";" ++ p.params else p.path
  urlunsplit p.scheme p.netloc path p.query p.fragment

/-- Python `urllib.parse.urldefrag`, first component: when the URL holds a
`#`, it is re-assembled from its parse with an empty fragment; otherwise it
is returned unchanged. -/
def urldefrag (u : String) : String :=
  if u.data.contains '#' then
    let p := urlparse u
    urlunparse { p with fragment := "" }
  else u

/-- The crawler's `normalize_url` (src/crawler.py:51-61): empty input is
returned as is; otherwise the fragment is dropped, an empty path becomes
`/`, a single trailing slash is stripped from any non-root path, and the
URL is re-assembled with `geturl`. -/
def normalize_url (u : String) : String :=
  if u = "" then u
  else
    let u1 := urldefrag u
    let p := urlparse u1
    let path := if p.path = "" then "/" else p.path
    let path := if strEnds path "/" && path ≠ "/" then strDropLast path else path
    urlunparse { p with path := path }

/-- The crawler's `same_domain` (src/crawler.py:64-69): hosts compared
case-insensitively.  The modelled `urlparse` is total, so the `except`
branch returning `False` is unreachable in the model. -/
def same_domain (u root : String) : Bool :=
  pyLower (urlparse u).netloc == pyLower (urlparse root).netloc

/-- The crawler's `EXCLUDED_EXTENSIONS` set (src/crawler.py:72-79), as a
list; `any` over it does not depend on the order. -/
def EXCLUDED_EXTENSIONS : List String :=
  [".jpg", ".jpeg", ".png", ".gif", ".svg", ".webp", ".ico",
   ".css", ".js", ".map",
   ".pdf", ".zip", ".gz", ".rar", ".7z",
   ".mp4", ".webm", ".mp3", ".wav", ".avi",
   ".ttf", ".woff", ".woff2", ".eot",
   ".xml"]

/-- The crawler's `looks_like_binary` (src/crawler.py:82-84). -/
def looks_like_binary (u : String) : Bool :=
  let path := pyLower (urlparse u).path
  EXCLUDED_EXTENSIONS.any (fun ext => strEnds path ext)

/-- An HTTP response as the crawler's page pipeline consumes it:
`requests.Response` restricted to status code, the optional Content-Type
header, and the decoded body text. -/
structure Response where
  status : Nat
  contentType : Option String
  body : String
deriving Repr, DecidableEq

/-- The crawler's `is_html_response` (src/crawler.py:87-89). -/
def is_html_response (r : Response) : Bool :=
  let ctype := pyLower (r.contentType.getD "")
  strIn "text/html" ctype || strIn "application/xhtml+xml" ctype

/-- State of `urllib.robotparser.RobotFileParser` as the crawler observes
it: the `disallow_all` / `allow_all` flags, whether `last_checked` is
nonzero (a successful `parse` ran), the parsed rule set abstracted to a
per-agent per-URL decision that may raise (the crawl loop guards
`can_fetch` with `try/except`), and the `Sitemap:` lines collected by
`parse`. -/
structure RobotFileParser where
  disallow_all : Bool
  allow_all : Bool
  last_checked : Bool
  rules : String → String → Except Unit Bool
  sitemaps : List String

/-- Python `RobotFileParser.can_fetch`: `disallow_all` forces `False`,
`allow_all` forces `True`, and — decisive for the fail-open claim — a
parser whose robots.txt was never successfully read (`last_checked`
still 0) answers `False` for every agent and URL; only past those checks
is the parsed rule set consulted. -/
def can_fetch (rp : RobotFileParser) (agent url : String) : Except Unit Bool :=
  if rp.disallow_all then Except.ok false
  else if rp.allow_all then Except.ok true
  else if !rp.last_checked then Except.ok false
  else rp.rules agent url

/-- Outcome of `RobotFileParser.read`'s attempt to open and parse
`robots.txt`: a successful download whose `parse` yields some rule set and
sitemap list; an `urllib.error.HTTPError` with a status code, handled
inside `read`; or any other exception (connection failure, timeout,
decode error), which `read` lets escape. -/
inductive ReadOutcome where
  | success (rules : String → String → Except Unit Bool) (sitemaps : List String)
  | httpError (code : Nat)
  | failure

/-- The crawler's `load_robots` (src/crawler.py:92-101) composed with the
semantics of `RobotFileParser.read`: on a successful download the file is
parsed (setting `last_checked`); an `HTTPError` with code 401 or 403 sets
`disallow_all`, any other 4xx code sets `allow_all`; any other exception
escapes `read` and is swallowed by `load_robots`'s bare `except`, leaving
the parser in its freshly-constructed state. -/
def load_robots (o : ReadOutcome) : RobotFileParser :=
  match o with
  | .success rules sitemaps =>
    { disallow_all := false, allow_all := false, last_checked := true,
      rules := rules, sitemaps := sitemaps }
  | .httpError code =>
    if code = 401 ∨ code = 403 then
      { disallow_all := true, allow_all := false, last_checked := false,
        rules := fun _ _ => Except.ok true, sitemaps := [] }
    else if 400 ≤ code ∧ code < 500 then
      { disallow_all := false, allow_all := true, last_checked := false,
        rules := fun _ _ => Except.ok true, sitemaps := [] }
    else
      { disallow_all := false, allow_all := false, last_checked := false,
        rules := fun _ _ => Except.ok true, sitemaps := [] }
  | .failure =>
    { disallow_all := false, allow_all := false, last_checked := false,
      rules := fun _ _ => Except.ok true, sitemaps := [] }

/-- Python `RobotFileParser.site_maps` followed by the crawler's
`discover_sitemaps` (src/crawler.py:104-116): the sitemaps declared in
robots.txt, or the single default `scheme://host/sitemap.xml` when none
were declared. -/
def discover_sitemaps (rp : RobotFileParser) (start_url : String) : List String :=
  if rp.sitemaps.isEmpty then
    let parsed := urlparse start_url
    [parsed.scheme ++ "://" ++ parsed.netloc ++ "/sitemap.xml"]
  else rp.sitemaps

/-- An XML element tree as `xml.etree.ElementTree` presents it to
`parse_sitemap`: a tag (possibly `\x7bnamespace\x7dlocal`), the optional
text, and the child elements. -/
inductive Xml where
  | elem (tag : String) (text : Option String) (children : List Xml)

/-- Tag of an element. -/
def Xml.tag : Xml → String
  | .elem t _ _ => t

/-- Text of an element (`None` modelled as `none`). -/
def Xml.text : Xml → Option String
  | .elem _ t _ => t

/-- Children of an element. -/
def Xml.children : Xml → List Xml
  | .elem _ _ c => c

/-- Local part of an ElementTree tag: the `\x7bnamespace\x7d` prefix, when
present, is dropped, matching the `\x7b*\x7d` wildcard of `findall`. -/
def localName (tag : String) : String :=
  match tag.data with
  | '\x7b' :: rest => String.mk ((rest.dropWhile (fun c => c ≠ '\x7d')).drop 1)
  | l => String.mk l

mutual

/-- All strict descendants of an element in document (preorder) order, as
`findall(".//...")` walks them. -/
def Xml.descendants : Xml → List Xml
  | .elem _ _ cs => descList cs

/-- Descendant walk over a sibling list. -/
def descList : List Xml → List Xml
  | [] => []
  | x :: xs => x :: (Xml.descendants x ++ descList xs)

end

/-- `root.findall(".//\x7b*\x7dmid/\x7b*\x7dloc")`: every descendant whose
local tag is `mid`, and of each such element its children whose local tag
is `loc`, in document order. -/
def findTagLocs (root : Xml) (mid : String) : List Xml :=
  ((Xml.descendants root).filter (fun e => localName e.tag == mid)).flatMap
    (fun e => e.children.filter (fun c => localName c.tag == "loc"))

/-- Python `str.strip()` (whitespace strip on both ends). -/
def pyWs (c : Char) : Bool :=
  c = ' ' || c = '\t' || c = '\n' || c = '\r' || c = '\x0b' || c = '\x0c'

/-- Python `str.strip()`. -/
def pyStrip (s : String) : String :=
  String.mk (((s.data.dropWhile pyWs).reverse.dropWhile pyWs).reverse)

/-- The accumulating for-loop over loc elements shared by both branches of
`parse_sitemap`: starting from `acc`, append `f loc` for every nonempty
stripped loc text, in order. -/
def locAccum (f : String → List String) : List Xml → List String → List String
  | [], acc => acc
  | e :: rest, acc =>
    let loc := pyStrip (e.text.getD "")
    if loc != "" then locAccum f rest (acc ++ f loc) else locAccum f rest acc

/-- Outcome of `session.get` on a sitemap URL as `parse_sitemap` consumes
it: a raised exception, or a response with status code, optional
Content-Type header and a body whose XML parse either succeeded (`some`
tree) or raised `ET.ParseError` (`none`). -/
inductive SmFetch where
  | err
  | ok (status : Nat) (contentType : Option String) (body : Option Xml)

/-- The crawler's `parse_sitemap` (src/crawler.py:119-143).  The `Nat`
argument models the interpreter's recursion budget: every recursive
resolution of a child sitemap runs with one unit less, and an exhausted
budget yields the empty list (in Python a `RecursionError` swallowed by
the enclosing `try`).  Any fetch exception, non-200 status, Content-Type
without `xml`, or XML parse error yields the empty list; a sitemap index
accumulates the recursive resolution of each nonempty stripped
`<sitemap><loc>`; a url-set accumulates each nonempty stripped
`<url><loc>`; any other root tag yields the empty list. -/
def parse_sitemap (env : String → SmFetch) : Nat → String → List String
  | 0, _ => []
  | fuel+1, url =>
    match env url with
    | .err => []
    | .ok status ctype body =>
      if status != 200 || !(strIn "xml" (pyLower (ctype.getD ""))) then []
      else
        match body with
        | none => []
        | some root =>
          let tag := pyLower root.tag
          if strEnds tag "sitemapindex" then
            locAccum (fun loc => parse_sitemap env fuel loc) (findTagLocs root "sitemap") []
          else if strEnds tag "urlset" then
            locAccum (fun loc => [loc]) (findTagLocs root "url") []
          else []

/-- Outcome of `session.get` on a page URL as the crawl loop consumes it:
a raised exception (`except Exception` branch) or a response. -/
inductive FetchOutcome where
  | err
  | ok (r : Response)

/-- The oracle environment standing for the crawler's external
collaborators: the robots.txt download outcome, `session.get` on page and
sitemap URLs, `extract_main_text` (BeautifulSoup, returning title, meta
description and main text) and `extract_links` (anchors of the HTML
resolved against the base URL). -/
structure Env where
  robotsRead : ReadOutcome
  pageFetch : String → FetchOutcome
  smFetch : String → SmFetch
  extract : String → String × String × String
  links : String → String → List String

/-- Terminal state of one dequeued URL in the crawl loop: the branch of
`crawl_peo`'s loop body that handled it. -/
inductive Branch where
  | duplicate
  | outOfScope
  | robotsDenied
  | binary
  | fetchError
  | non200
  | nonHtml
  | saved
deriving Repr, DecidableEq

/-- Observable record of one loop iteration: which checks ran, whether
`session.get` / `extract_main_text` / `save_txt` / `append_manifest` were
called, the URLs appended to the frontier, and how many `time.sleep(delay)`
calls the iteration performed. -/
structure StepTrace where
  url : String
  branch : Branch
  checkedScope : Bool
  checkedRobots : Bool
  checkedBinary : Bool
  fetched : Bool
  extracted : Bool
  wroteFile : Bool
  manifestAppended : Bool
  enqueued : List String
  sleeps : Nat
deriving Repr, DecidableEq

/-- Mutable state of `crawl_peo`'s loop: the frontier `queue` (a deque
popped at the left, appended at the right), the `seen` set (a list with
membership, insertion at the head) and the saved-page counter `count`. -/
structure CrawlState where
  queue : List String
  seen : List String
  count : Nat
deriving Repr, DecidableEq

/-- The robots gate of the loop body (src/crawler.py:293-300): `can_fetch`
returning `False` skips the URL; a `True` answer or an exception
(`except Exception: pass`) lets the URL continue to the next check. -/
def robotsDenies (rp : RobotFileParser) (agent url : String) : Bool :=
  match can_fetch rp agent url with
  | .ok b => !b
  | .error _ => false

/-- One iteration of `crawl_peo`'s loop body (src/crawler.py:282-349) on
the dequeued `url`, with `rest` the remaining frontier: the seen check,
`seen.add`, the scope check, the robots gate, the binary-extension check,
the fetch, the status and content-type classification, extraction,
persistence, manifest append, link discovery and enqueueing — in source
order, each branch ending in one `time.sleep(delay)`. -/
def step (env : Env) (start_url agent : String) (rp : RobotFileParser)
    (st : CrawlState) (url : String) (rest : List String) :
    CrawlState × StepTrace :=
  if st.seen.contains url then
    ({ st with queue := rest },
     ⟨url, Branch.duplicate, false, false, false, false, false, false, false, [], 1⟩)
  else
    let seen1 := url :: st.seen
    if !(same_domain url start_url) then
      ({ queue := rest, seen := seen1, count := st.count },
       ⟨url, Branch.outOfScope, true, false, false, false, false, false, false, [], 1⟩)
    else if robotsDenies rp agent url then
      ({ queue := rest, seen := seen1, count := st.count },
       ⟨url, Branch.robotsDenied, true, true, false, false, false, false, false, [], 1⟩)
    else if looks_like_binary url then
      ({ queue := rest, seen := seen1, count := st.count },
       ⟨url, Branch.binary, true, true, true, false, false, false, false, [], 1⟩)
    else
      match env.pageFetch url with
      | .err =>
        ({ queue := rest, seen := seen1, count := st.count },
         ⟨url, Branch.fetchError, true, true, true, true, false, false, false, [], 1⟩)
      | .ok resp =>
        if resp.status != 200 then
          ({ queue := rest, seen := seen1, count := st.count },
           ⟨url, Branch.non200, true, true, true, true, false, false, false, [], 1⟩)
        else if !(is_html_response resp) then
          ({ queue := rest, seen := seen1, count := st.count },
           ⟨url, Branch.nonHtml, true, true, true, true, false, false, false, [], 1⟩)
        else
          let html := resp.body
          let extraction := env.extract html
          let enq := (env.links html url).foldl (fun acc link =>
            let n := normalize_url link
            if !(seen1.contains n) && same_domain n start_url && !(looks_like_binary n)
            then acc ++ [n] else acc) []
          ({ queue := rest ++ enq, seen := seen1, count := st.count + 1 },
           ⟨url, Branch.saved, true, true, true, true, true, true, true, enq, 1⟩)

/-- The crawl loop `while queue and count < max_pages`
(src/crawler.py:281-349).  The `Nat` fuel only bounds how many iterations
are unrolled; the loop-termination theorem shows some fuel always reaches
the loop's own stopping condition, after which more fuel changes
nothing. -/
def crawlLoop (env : Env) (start_url agent : String) (rp : RobotFileParser)
    (maxPages : Nat) : Nat → CrawlState → CrawlState × List StepTrace
  | 0, st => (st, [])
  | fuel+1, st =>
    match st.queue with
    | [] => (st, [])
    | url :: rest =>
      if st.count < maxPages then
        let p := step env start_url agent rp st url rest
        let r := crawlLoop env start_url agent rp maxPages fuel p.1
        (r.1, p.2 :: r.2)
      else (st, [])

/-- The sitemap seeding loop of `crawl_peo` (src/crawler.py:263-272): for
each discovered sitemap, its same-domain URLs; when that list is nonempty
the normalized non-binary ones are appended to the queue and `seeded` is
set. -/
def seedLoop (env : Env) (smFuel : Nat) (start_url : String) :
    List String → List String → Bool → List String × Bool
  | [], q, seeded => (q, seeded)
  | sm :: rest, q, seeded =>
    let urls := (parse_sitemap env.smFetch smFuel sm).filter
      (fun u => same_domain u start_url)
    if urls.isEmpty then seedLoop env smFuel start_url rest q seeded
    else
      seedLoop env smFuel start_url rest
        (q ++ ((urls.map normalize_url).filter (fun n => !(looks_like_binary n)))) true

/-- Sitemap-driven seeding (src/crawler.py:261-274): run the seeding loop
over the discovered sitemaps; when nothing seeded, enqueue the normalized
start URL. -/
def seedQueue (env : Env) (smFuel : Nat) (rp : RobotFileParser)
    (start_url : String) : List String :=
  let sitemaps := discover_sitemaps rp start_url
  let qs := seedLoop env smFuel start_url sitemaps [] false
  if !qs.2 then qs.1 ++ [normalize_url start_url] else qs.1

/-- The session's User-Agent header, as `make_session` installs it and
`crawl_peo` reads it back for the robots checks. -/
def USER_AGENT : String := "CommunityMateCrawler/0.1 (+https://example.com/demo)"

/-- Result of one crawl run: the final loop state, the per-iteration
traces, and the seeded initial frontier. -/
structure CrawlRun where
  final : CrawlState
  traces : List StepTrace
  seeded : List String

/-- The crawler's `crawl_peo` (src/crawler.py:240-352): load robots, seed
the frontier (from sitemaps when enabled, else the normalized start URL),
then drive the loop.  `smFuel` bounds sitemap recursion depth and
`loopFuel` the unrolled loop iterations. -/
def crawl_peo (env : Env) (smFuel loopFuel : Nat) (start_url : String)
    (maxPages : Nat) (use_sitemap : Bool) : CrawlRun :=
  let rp := load_robots env.robotsRead
  let q0 := if use_sitemap then seedQueue env smFuel rp start_url
            else [normalize_url start_url]
  let st0 : CrawlState := { queue := q0, seen := [], count := 0 }
  let r := crawlLoop env start_url USER_AGENT rp maxPages loopFuel st0
  { final := r.1, traces := r.2, seeded := q0 }

/-- The command-line entry point's page-cap policy (src/crawler.py:364-365):
`args.max_pages = min(args.max_pages, 20)`. -/
def mainMaxPages (requested : Nat) : Nat := min requested 20

/-- The crawler's `main` (src/crawler.py:355-373): the requested cap is
hard-capped at 20 and `crawl_peo` is invoked. -/
def main_model (env : Env) (smFuel loopFuel : Nat) (start_url : String)
    (requested : Nat) (use_sitemap : Bool) : CrawlRun :=
  crawl_peo env smFuel loopFuel start_url (mainMaxPages requested) use_sitemap

/-- Every append to the frontier over the lifetime of a run: the seeded
initial queue followed by each iteration's enqueued links, in order. -/
def enqueueLog (run : CrawlRun) : List String :=
  run.seeded ++ run.traces.flatMap (fun tr => tr.enqueued)

/-- URLs that were processed past the duplicate check (their iteration took
any branch other than `duplicate`). -/
def processedUrls (trs : List StepTrace) : List String :=
  (trs.filter (fun tr => tr.branch != Branch.duplicate)).map (fun tr => tr.url)

/-- Trace of one loop iteration (projection of `step`). -/
def stepTr (env : Env) (start_url agent : String) (rp : RobotFileParser)
    (st : CrawlState) (url : String) (rest : List String) : StepTrace :=
  (step env start_url agent rp st url rest).2

/-- The per-sitemap contribution to the seeded frontier: same-domain URLs,
normalized, with binary-looking ones dropped. -/
def seedEnq (env : Env) (smFuel : Nat) (start_url : String) (sm : String) :
    List String :=
  (((parse_sitemap env.smFetch smFuel sm).filter
      (fun u => same_domain u start_url)).map normalize_url).filter
    (fun n => !(looks_like_binary n))

/-- Nonempty stripped `<mid><loc>` texts of a document, in order: what the
sitemap loops iterate over. -/
def cleanLocs (root : Xml) (mid : String) : List String :=
  ((findTagLocs root mid).map (fun e => pyStrip (e.text.getD ""))).filter
    (fun l => l != "")

/-- A rule set that allows everything (a permissive parsed robots.txt). -/
def okRules : String → String → Except Unit Bool := fun _ _ => Except.ok true

/-- A robots policy obtained from a successfully read, all-allowing
robots.txt. -/
def rpOk : RobotFileParser := load_robots (ReadOutcome.success okRules [])

/-- Concrete test site: the start page `http://h/s` is HTML and links twice
to `http://h/c`; `http://h/b` is HTML with no links; every other fetch
raises. -/
def envA : Env :=
  { robotsRead := ReadOutcome.success okRules []
    pageFetch := fun u =>
      if u = "http://h/s" then FetchOutcome.ok ⟨200, some "text/html", "A"⟩
      else if u = "http://h/b" then FetchOutcome.ok ⟨200, some "text/html", "B"⟩
      else FetchOutcome.err
    smFetch := fun _ => SmFetch.err
    extract := fun _ => ("t", "d", "x")
    links := fun html base =>
      if html = "A" then ["http://h/c", "http://h/c"] else [] }

/-- Concrete test site whose every page is served as `application/pdf`. -/
def envPdf : Env :=
  { robotsRead := ReadOutcome.success okRules []
    pageFetch := fun _ => FetchOutcome.ok ⟨200, some "application/pdf", "P"⟩
    smFetch := fun _ => SmFetch.err
    extract := fun _ => ("t", "d", "x")
    links := fun _ _ => [] }

/-- Initial loop state over the single seeded start URL `http://h/s`. -/
def stInit : CrawlState := { queue := ["http://h/s"], seen := [], count := 0 }

/-! ## Theorems -/

/-- Claim C9: `normalize_url` returns the empty string unchanged (no
empty-path-to-`/` rewrite, no exception); the rewrite of an empty path to
`/` applies to non-empty URL strings such as `http://h`. -/
theorem c9_normalize_url_empty_string :
    normalize_url "" = "" ∧ normalize_url "http://h" = "http://h/" := by
  constructor
  · rfl
  · rfl

/-- Claim C5 fails on the code: `normalize_url` strips one trailing slash
only, so on a path ending in a double slash one application leaves a
trailing slash on a non-root path (contradicting the function's own
docstring) and a second application still changes the URL. -/
theorem c5_normalize_url_not_idempotent :
    normalize_url "http://host/a//" = "http://host/a/" ∧
    normalize_url (normalize_url "http://host/a//") = "http://host/a" ∧
    normalize_url (normalize_url "http://host/a//") ≠ normalize_url "http://host/a//" := by
  refine ⟨rfl, rfl, ?_⟩
  decide

/-- Claim C1 fails on the code: when `rp.read()` raises (any non-HTTPError
exception — connection failure, timeout, decode error), `load_robots`
swallows the exception and returns a parser that was never marked as read,
and `RobotFileParser.can_fetch` then answers `False` for every agent and
every URL (fail-closed, not fail-open); in the crawl loop such a policy
sends every fresh in-scope URL into the robots-denied skip. -/
theorem c1_robots_read_failure_fails_closed :
    (∀ agent url, can_fetch (load_robots ReadOutcome.failure) agent url =
      Except.ok false) ∧
    (stepTr envA "http://h/s" USER_AGENT (load_robots ReadOutcome.failure)
      stInit "http://h/s" []).branch = Branch.robotsDenied := by
  constructor
  · intro agent url
    rfl
  · decide

/-- The seeding loop appends exactly the per-sitemap contributions, and
records whether any sitemap yielded a same-domain URL. -/
theorem seedLoop_eq (env : Env) (smFuel : Nat) (start_url : String) :
    ∀ (sms q : List String) (seeded : Bool),
    seedLoop env smFuel start_url sms q seeded =
      (q ++ sms.flatMap (seedEnq env smFuel start_url),
       seeded || sms.any (fun sm =>
         !((parse_sitemap env.smFetch smFuel sm).filter
             (fun u => same_domain u start_url)).isEmpty)) := by
  intro sms
  induction sms with
  | nil => intro q seeded; simp [seedLoop]
  | cons sm rest ih =>
    intro q seeded
    simp only [seedLoop]
    cases h : ((parse_sitemap env.smFetch smFuel sm).filter
        (fun u => same_domain u start_url)).isEmpty with
    | true =>
      rw [if_pos rfl, ih]
      have h' : (parse_sitemap env.smFetch smFuel sm).filter
          (fun u => same_domain u start_url) = [] := by
        simpa [List.isEmpty_iff] using h
      simp [seedEnq, h', h]
    | false =>
      rw [if_neg (by simp), ih]
      simp [h, seedEnq, List.append_assoc]

/-- Claim C10: with sitemap seeding enabled, the frontier is seeded with the
concatenation of each discovered sitemap's same-domain, normalized,
non-binary URLs when some sitemap yields at least one same-domain URL, and
with exactly the normalized start URL otherwise. -/
theorem c10_sitemap_seeding (env : Env) (smFuel : Nat) (rp : RobotFileParser)
    (start_url : String) :
    seedQueue env smFuel rp start_url =
      if (discover_sitemaps rp start_url).any (fun sm =>
           !((parse_sitemap env.smFetch smFuel sm).filter
               (fun u => same_domain u start_url)).isEmpty)
      then (discover_sitemaps rp start_url).flatMap (seedEnq env smFuel start_url)
      else [normalize_url start_url] := by
  cases hAny : (discover_sitemaps rp start_url).any (fun sm =>
      !((parse_sitemap env.smFetch smFuel sm).filter
          (fun u => same_domain u start_url)).isEmpty) with
  | true => simp [seedQueue, seedLoop_eq, hAny]
  | false =>
    have hnil : (discover_sitemaps rp start_url).flatMap
        (seedEnq env smFuel start_url) = [] := by
      rw [List.flatMap_eq_nil_iff]
      intro sm hsm
      have := (List.any_eq_false.mp hAny) sm hsm
      have hempty : ((parse_sitemap env.smFetch smFuel sm).filter
          (fun u => same_domain u start_url)) = [] := by
        cases hE : ((parse_sitemap env.smFetch smFuel sm).filter
            (fun u => same_domain u start_url)).isEmpty with
        | true => simpa [List.isEmpty_iff] using hE
        | false => simp [hE] at this
      simp [seedEnq, hempty]
    simp [seedQueue, seedLoop_eq, hAny, hnil]

/-- The accumulating loc-loop of `parse_sitemap` is the concatenation of
`f` over the nonempty stripped loc texts. -/
theorem locAccum_eq (f : String → List String) :
    ∀ (es : List Xml) (acc : List String),
    locAccum f es acc
    = acc ++ (((es.map (fun e => pyStrip (e.text.getD ""))).filter
        (fun l => l != "")).flatMap f) := by
  intro es
  induction es with
  | nil => intro acc; simp [locAccum]
  | cons e rest ih =>
    intro acc
    cases h : (pyStrip (e.text.getD "") != "") with
    | true => simp [locAccum, ih, h, List.append_assoc]
    | false => simp [locAccum, ih, h]

/-- Claim C7: `parse_sitemap` returns the empty list on a fetch exception,
a non-200 status, a Content-Type without `xml`, or an XML parse failure;
on a sitemap index it returns the concatenation of recursively resolving
every nonempty `<sitemap><loc>` entry, and on a url-set it returns the
nonempty stripped `<url><loc>` texts. -/
theorem c7_parse_sitemap_spec (env : String → SmFetch) (fuel : Nat) (url : String) :
    (env url = SmFetch.err → parse_sitemap env (fuel + 1) url = []) ∧
    (∀ status ctype body, env url = SmFetch.ok status ctype body →
       status ≠ 200 ∨ strIn "xml" (pyLower (ctype.getD "")) = false →
       parse_sitemap env (fuel + 1) url = []) ∧
    (∀ status ctype, env url = SmFetch.ok status ctype none →
       parse_sitemap env (fuel + 1) url = []) ∧
    (∀ ctype root, env url = SmFetch.ok 200 ctype (some root) →
       strIn "xml" (pyLower (ctype.getD "")) = true →
       strEnds (pyLower root.tag) "sitemapindex" = true →
       parse_sitemap env (fuel + 1) url =
         (cleanLocs root "sitemap").flatMap (parse_sitemap env fuel)) ∧
    (∀ ctype root, env url = SmFetch.ok 200 ctype (some root) →
       strIn "xml" (pyLower (ctype.getD "")) = true →
       strEnds (pyLower root.tag) "sitemapindex" = false →
       strEnds (pyLower root.tag) "urlset" = true →
       parse_sitemap env (fuel + 1) url = cleanLocs root "url") := by
  refine ⟨?_, ?_, ?_, ?_, ?_⟩
  · intro h
    simp [parse_sitemap, h]
  · intro status ctype body h hbad
    have hcond : (status != 200 || !(strIn "xml" (pyLower (ctype.getD "")))) = true := by
      rcases hbad with h1 | h1
      · simp [bne_iff_ne, h1]
      · simp [h1]
    simp [parse_sitemap, h, hcond]
  · intro status ctype h
    simp only [parse_sitemap, h]
    split
    · rfl
    · rfl
  · intro ctype root h hxml htag
    simp only [parse_sitemap, h]
    rw [if_neg (by simp [hxml]), if_pos htag, locAccum_eq]
    simp [cleanLocs]
  · intro ctype root h hxml hidx huset
    simp only [parse_sitemap, h]
    rw [if_neg (by simp [hxml]), if_neg (by simp [hidx]), if_pos huset, locAccum_eq]
    simp [cleanLocs, List.flatMap_singleton']

/-- Every branch of the loop body performs exactly one politeness sleep. -/
theorem step_sleeps (env : Env) (s a : String) (rp : RobotFileParser)
    (st : CrawlState) (url : String) (rest : List String) :
    (step env s a rp st url rest).2.sleeps = 1 := by
  unfold step
  repeat first | rfl | split

/-- The trace always records the dequeued URL. -/
theorem step_url (env : Env) (s a : String) (rp : RobotFileParser)
    (st : CrawlState) (url : String) (rest : List String) :
    (step env s a rp st url rest).2.url = url := by
  unfold step
  repeat first | rfl | split

/-- A dequeued URL that is already in the seen set is dismissed as a
duplicate without touching seen or count. -/
theorem step_dup (env : Env) (s a : String) (rp : RobotFileParser)
    (st : CrawlState) (url : String) (rest : List String)
    (h : st.seen.contains url = true) :
    step env s a rp st url rest =
      ({ st with queue := rest },
       ⟨url, Branch.duplicate, false, false, false, false, false, false, false, [], 1⟩) := by
  unfold step
  rw [if_pos h]

/-- A fresh dequeued URL is added to the seen set, whichever branch
handles it. -/
theorem step_fresh_seen (env : Env) (s a : String) (rp : RobotFileParser)
    (st : CrawlState) (url : String) (rest : List String)
    (h : st.seen.contains url = false) :
    (step env s a rp st url rest).1.seen = url :: st.seen := by
  replace h : url ∉ st.seen := by simpa using h
  unfold step
  rw [if_neg (by simpa using h)]
  repeat first | rfl | split

/-- A fresh dequeued URL never takes the duplicate branch. -/
theorem step_fresh_branch (env : Env) (s a : String) (rp : RobotFileParser)
    (st : CrawlState) (url : String) (rest : List String)
    (h : st.seen.contains url = false) :
    (step env s a rp st url rest).2.branch ≠ Branch.duplicate := by
  replace h : url ∉ st.seen := by simpa using h
  unfold step
  rw [if_neg (by simpa using h)]
  repeat' split
  all_goals exact fun hEq => Branch.noConfusion hEq

/-- The duplicate branch leaves the seen set unchanged; conversely no
branch removes seen elements. -/
theorem step_seen_mono (env : Env) (s a : String) (rp : RobotFileParser)
    (st : CrawlState) (url : String) (rest : List String) :
    st.seen ⊆ (step env s a rp st url rest).1.seen := by
  cases h : st.seen.contains url with
  | true =>
    rw [step_dup env s a rp st url rest h]
    exact List.Subset.refl _
  | false =>
    rw [step_fresh_seen env s a rp st url rest h]
    exact List.subset_cons_self _ _

/-- Each iteration either leaves the counter alone and shortens the queue
to the popped remainder, or saves one page. -/
theorem step_shape (env : Env) (s a : String) (rp : RobotFileParser)
    (st : CrawlState) (url : String) (rest : List String) :
    ((step env s a rp st url rest).1.queue = rest ∧
     (step env s a rp st url rest).1.count = st.count) ∨
    (step env s a rp st url rest).1.count = st.count + 1 := by
  unfold step
  repeat first | (left; exact ⟨rfl, rfl⟩) | (right; rfl) | split

/-- The counter grows by one exactly when the iteration appended a
manifest record. -/
theorem step_count_manifest (env : Env) (s a : String) (rp : RobotFileParser)
    (st : CrawlState) (url : String) (rest : List String) :
    (step env s a rp st url rest).1.count =
      st.count + (if (step env s a rp st url rest).2.manifestAppended then 1 else 0) := by
  unfold step
  repeat first | rfl | split

/-- The loop does nothing on an empty frontier. -/
theorem loop_nil (env : Env) (s a : String) (rp : RobotFileParser) (m : Nat)
    (fuel : Nat) (st : CrawlState) (h : st.queue = []) :
    crawlLoop env s a rp m (fuel + 1) st = (st, []) := by
  simp [crawlLoop, h]

/-- The loop stops when the counter has reached the cap. -/
theorem loop_stop (env : Env) (s a : String) (rp : RobotFileParser) (m : Nat)
    (fuel : Nat) (st : CrawlState) (url : String) (rest : List String)
    (h : st.queue = url :: rest) (hc : ¬ st.count < m) :
    crawlLoop env s a rp m (fuel + 1) st = (st, []) := by
  simp [crawlLoop, h, hc]

/-- One unrolling of the loop on a nonempty frontier below the cap. -/
theorem loop_cons (env : Env) (s a : String) (rp : RobotFileParser) (m : Nat)
    (fuel : Nat) (st : CrawlState) (url : String) (rest : List String)
    (h : st.queue = url :: rest) (hc : st.count < m) :
    crawlLoop env s a rp m (fuel + 1) st =
      ((crawlLoop env s a rp m fuel (step env s a rp st url rest).1).1,
       (step env s a rp st url rest).2 ::
         (crawlLoop env s a rp m fuel (step env s a rp st url rest).1).2) := by
  simp [crawlLoop, h, hc]

/-- Once the loop's own stopping condition holds, any amount of fuel
returns the state unchanged. -/
theorem loop_stable (env : Env) (s a : String) (rp : RobotFileParser) (m : Nat)
    (st : CrawlState) (h : st.queue = [] ∨ m ≤ st.count) :
    ∀ fuel, crawlLoop env s a rp m fuel st = (st, []) := by
  intro fuel
  cases fuel with
  | zero => rfl
  | succ n =>
    rcases h with h | h
    · exact loop_nil env s a rp m n st h
    · cases hq : st.queue with
      | nil => exact loop_nil env s a rp m n st hq
      | cons url rest => exact loop_stop env s a rp m n st url rest hq (Nat.not_lt.mpr h)

/-- The saved-page counter never exceeds the cap. -/
theorem loop_count_le (env : Env) (s a : String) (rp : RobotFileParser) (m : Nat) :
    ∀ (fuel : Nat) (st : CrawlState), st.count ≤ m →
    (crawlLoop env s a rp m fuel st).1.count ≤ m := by
  intro fuel
  induction fuel with
  | zero => intro st h; exact h
  | succ n ih =>
    intro st h
    cases hq : st.queue with
    | nil => rw [loop_nil env s a rp m n st hq]; exact h
    | cons url rest =>
      by_cases hc : st.count < m
      · rw [loop_cons env s a rp m n st url rest hq hc]
        apply ih
        rcases step_shape env s a rp st url rest with ⟨-, hcnt⟩ | hcnt
        · rw [hcnt]; exact h
        · rw [hcnt]; exact hc
      · rw [loop_stop env s a rp m n st url rest hq hc]; exact h

/-- The counter's growth over a run equals the number of iterations that
appended a manifest record (equivalently, saved a page). -/
theorem loop_count_eq (env : Env) (s a : String) (rp : RobotFileParser) (m : Nat) :
    ∀ (fuel : Nat) (st : CrawlState),
    (crawlLoop env s a rp m fuel st).1.count =
      st.count + ((crawlLoop env s a rp m fuel st).2.filter
        (fun tr => tr.manifestAppended)).length := by
  intro fuel
  induction fuel with
  | zero => intro st; simp [crawlLoop]
  | succ n ih =>
    intro st
    cases hq : st.queue with
    | nil => rw [loop_nil env s a rp m n st hq]; simp
    | cons url rest =>
      by_cases hc : st.count < m
      · rw [loop_cons env s a rp m n st url rest hq hc]
        have hstep := step_count_manifest env s a rp st url rest
        have hrec := ih (step env s a rp st url rest).1
        cases hm : (step env s a rp st url rest).2.manifestAppended with
        | true =>
          rw [hm] at hstep
          simp only [if_pos rfl] at hstep
          simp [List.filter_cons, hm, hrec, hstep]
          omega
        | false =>
          rw [hm] at hstep
          simp at hstep
          simp [List.filter_cons, hm, hrec, hstep]
      · rw [loop_stop env s a rp m n st url rest hq hc]; simp

/-- Every iteration of a run sleeps exactly once. -/
theorem loop_sleeps_all (env : Env) (s a : String) (rp : RobotFileParser) (m : Nat) :
    ∀ (fuel : Nat) (st : CrawlState),
    ((crawlLoop env s a rp m fuel st).2.all (fun tr => tr.sleeps == 1)) = true := by
  intro fuel
  induction fuel with
  | zero => intro st; simp [crawlLoop]
  | succ n ih =>
    intro st
    cases hq : st.queue with
    | nil => rw [loop_nil env s a rp m n st hq]; simp
    | cons url rest =>
      by_cases hc : st.count < m
      · rw [loop_cons env s a rp m n st url rest hq hc]
        simp [List.all_cons, step_sleeps env s a rp st url rest, ih]
      · rw [loop_stop env s a rp m n st url rest hq hc]; simp

/-- The seen set only ever gains elements over a run. -/
theorem loop_seen_mono (env : Env) (s a : String) (rp : RobotFileParser) (m : Nat) :
    ∀ (fuel : Nat) (st : CrawlState),
    st.seen ⊆ (crawlLoop env s a rp m fuel st).1.seen := by
  intro fuel
  induction fuel with
  | zero => intro st; exact List.Subset.refl _
  | succ n ih =>
    intro st
    cases hq : st.queue with
    | nil => rw [loop_nil env s a rp m n st hq]; exact List.Subset.refl _
    | cons url rest =>
      by_cases hc : st.count < m
      · rw [loop_cons env s a rp m n st url rest hq hc]
        exact (step_seen_mono env s a rp st url rest).trans
          (ih (step env s a rp st url rest).1)
      · rw [loop_stop env s a rp m n st url rest hq hc]; exact List.Subset.refl _

/-- Over any run, the URLs processed past the duplicate check are pairwise
distinct and disjoint from the initial seen set. -/
theorem loop_processed (env : Env) (s a : String) (rp : RobotFileParser) (m : Nat) :
    ∀ (fuel : Nat) (st : CrawlState),
    (processedUrls (crawlLoop env s a rp m fuel st).2).Nodup ∧
    ∀ u ∈ processedUrls (crawlLoop env s a rp m fuel st).2, u ∉ st.seen := by
  intro fuel
  induction fuel with
  | zero => intro st; simp [crawlLoop, processedUrls]
  | succ n ih =>
    intro st
    cases hq : st.queue with
    | nil => rw [loop_nil env s a rp m n st hq]; simp [processedUrls]
    | cons url rest =>
      by_cases hc : st.count < m
      · rw [loop_cons env s a rp m n st url rest hq hc]
        cases hd : st.seen.contains url with
        | true =>
          rw [step_dup env s a rp st url rest hd]
          obtain ⟨h1, h2⟩ := ih { st with queue := rest }
          constructor
          · simpa [processedUrls] using h1
          · intro u hu
            exact h2 u (by simpa [processedUrls] using hu)
        | false =>
          have hseen := step_fresh_seen env s a rp st url rest hd
          have hbr := step_fresh_branch env s a rp st url rest hd
          have hurl := step_url env s a rp st url rest
          obtain ⟨h1, h2⟩ := ih (step env s a rp st url rest).1
          have hproc : processedUrls
              ((step env s a rp st url rest).2 ::
                (crawlLoop env s a rp m n (step env s a rp st url rest).1).2) =
              url :: processedUrls
                (crawlLoop env s a rp m n (step env s a rp st url rest).1).2 := by
            simp [processedUrls, List.filter_cons, bne_iff_ne, hbr, hurl]
          rw [hproc]
          have hdmem : url ∉ st.seen := by simpa using hd
          constructor
          · refine List.nodup_cons.mpr ⟨?_, h1⟩
            intro hmem
            have := h2 url hmem
            rw [hseen] at this
            exact this (List.mem_cons_self url st.seen)
          · intro u hu
            rcases List.mem_cons.mp hu with rfl | hu'
            · exact hdmem
            · have := h2 u hu'
              rw [hseen] at this
              exact fun hmem => this (List.mem_cons_of_mem _ hmem)
      · rw [loop_stop env s a rp m n st url rest hq hc]; simp [processedUrls]

/-- Some fuel always reaches the loop's own stopping condition, after which
additional fuel changes nothing: the loop stops exactly when the frontier
is empty or the counter has reached the cap. -/
theorem loop_reaches (env : Env) (s a : String) (rp : RobotFileParser) (m : Nat) :
    ∀ (gap len : Nat) (st : CrawlState), m - st.count ≤ gap → st.queue.length ≤ len →
    ∃ n, ((crawlLoop env s a rp m n st).1.queue = [] ∨
          m ≤ (crawlLoop env s a rp m n st).1.count) ∧
      ∀ k, crawlLoop env s a rp m (n + k) st = crawlLoop env s a rp m n st := by
  intro gap
  induction gap with
  | zero =>
    intro len st hgap hlen
    have hm : m ≤ st.count := Nat.sub_eq_zero_iff_le.mp (Nat.le_zero.mp hgap)
    refine ⟨0, Or.inr hm, ?_⟩
    intro k
    rw [Nat.zero_add, loop_stable env s a rp m st (Or.inr hm) k]
    rfl
  | succ g ihg =>
    intro len
    induction len with
    | zero =>
      intro st hgap hlen
      have hq : st.queue = [] := List.length_eq_zero.mp (Nat.le_zero.mp hlen)
      refine ⟨0, Or.inl hq, ?_⟩
      intro k
      rw [Nat.zero_add, loop_stable env s a rp m st (Or.inl hq) k]
      rfl
    | succ l ihl =>
      intro st hgap hlen
      cases hq : st.queue with
      | nil =>
        refine ⟨0, Or.inl hq, ?_⟩
        intro k
        rw [Nat.zero_add, loop_stable env s a rp m st (Or.inl hq) k]
        rfl
      | cons url rest =>
        by_cases hc : st.count < m
        · rcases step_shape env s a rp st url rest with ⟨hq', hcnt⟩ | hcnt
          · have hgap' : m - (step env s a rp st url rest).1.count ≤ g + 1 := by
              rw [hcnt]; exact hgap
            have hlen' : (step env s a rp st url rest).1.queue.length ≤ l := by
              rw [hq']
              have : st.queue.length ≤ l + 1 := hlen
              rw [hq] at this
              simpa using this
            obtain ⟨n, hstop, hstab⟩ := ihl (step env s a rp st url rest).1 hgap' hlen'
            refine ⟨n + 1, ?_, ?_⟩
            · rw [loop_cons env s a rp m n st url rest hq hc]
              exact hstop
            · intro k
              have hswap : n + 1 + k = (n + k) + 1 := by omega
              rw [hswap, loop_cons env s a rp m (n + k) st url rest hq hc,
                loop_cons env s a rp m n st url rest hq hc, hstab k]
          · have hgap' : m - (step env s a rp st url rest).1.count ≤ g := by
              rw [hcnt]
              omega
            obtain ⟨n, hstop, hstab⟩ :=
              ihg (step env s a rp st url rest).1.queue.length
                (step env s a rp st url rest).1 hgap' (Nat.le_refl _)
            refine ⟨n + 1, ?_, ?_⟩
            · rw [loop_cons env s a rp m n st url rest hq hc]
              exact hstop
            · intro k
              have hswap : n + 1 + k = (n + k) + 1 := by omega
              rw [hswap, loop_cons env s a rp m (n + k) st url rest hq hc,
                loop_cons env s a rp m n st url rest hq hc, hstab k]
        · refine ⟨0, Or.inr (Nat.not_lt.mp hc), ?_⟩
          intro k
          rw [Nat.zero_add, loop_stable env s a rp m st (Or.inr (Nat.not_lt.mp hc)) k]
          rfl

/-- Unfolding of `crawl_peo` into its seeded initial state and loop run. -/
theorem crawl_peo_def (env : Env) (smFuel loopFuel : Nat) (start_url : String)
    (maxPages : Nat) (use_sitemap : Bool) :
    crawl_peo env smFuel loopFuel start_url maxPages use_sitemap =
      { final := (crawlLoop env start_url USER_AGENT (load_robots env.robotsRead)
          maxPages loopFuel
          { queue := if use_sitemap then
              seedQueue env smFuel (load_robots env.robotsRead) start_url
            else [normalize_url start_url], seen := [], count := 0 }).1,
        traces := (crawlLoop env start_url USER_AGENT (load_robots env.robotsRead)
          maxPages loopFuel
          { queue := if use_sitemap then
              seedQueue env smFuel (load_robots env.robotsRead) start_url
            else [normalize_url start_url], seen := [], count := 0 }).2,
        seeded := if use_sitemap then
            seedQueue env smFuel (load_robots env.robotsRead) start_url
          else [normalize_url start_url] } := rfl

/-- Claim C6: every iteration of the crawl loop, whatever branch handles
it, performs exactly one politeness sleep of the configured delay between
its dequeue and the next. -/
theorem c6_one_sleep_per_dequeue (env : Env) (s a : String)
    (rp : RobotFileParser) (m fuel : Nat) (st : CrawlState) :
    ((crawlLoop env s a rp m fuel st).2.all (fun tr => tr.sleeps == 1) = true) ∧
    ∀ (st' : CrawlState) (url : String) (rest : List String),
      (step env s a rp st' url rest).2.sleeps = 1 :=
  ⟨loop_sleeps_all env s a rp m fuel st,
   fun st' url rest => step_sleeps env s a rp st' url rest⟩

/-- Claim C2 fails on the code: in a concrete run the canonical URL
`http://h/c` is appended to the frontier twice (the link-enqueue loop
checks only the seen set, which grows at dequeue time, not at enqueue
time). -/
theorem c2_counterexample_url_enqueued_twice :
    (enqueueLog (crawl_peo envA 0 5 "http://h/s" 1 false)).count "http://h/c" = 2 := by
  decide

/-- Claim C2, amended: a canonical URL may be appended to the frontier more
than once, but every URL is processed past the duplicate check at most once
per run, and the seen set only ever gains elements. -/
theorem c2_amended_seen_grows_processed_once (env : Env) (s a : String)
    (rp : RobotFileParser) (m fuel : Nat) (st : CrawlState) :
    st.seen ⊆ (crawlLoop env s a rp m fuel st).1.seen ∧
    (processedUrls (crawlLoop env s a rp m fuel st).2).Nodup :=
  ⟨loop_seen_mono env s a rp m fuel st, (loop_processed env s a rp m fuel st).1⟩

/-- Claim C8: the loop body applies its checks in source order with
first-match-wins short-circuiting: already-seen, same-host scope, robots
permission, binary extension, fetch, status/content-type classification,
extraction; a URL failing an earlier check never reaches a later one, and
the fetch happens exactly when all four pre-fetch checks pass. -/
theorem c8_transition_order (env : Env) (s a : String) (rp : RobotFileParser)
    (st : CrawlState) (url : String) (rest : List String) :
    ((step env s a rp st url rest).2.branch = Branch.duplicate ↔
      st.seen.contains url = true) ∧
    ((step env s a rp st url rest).2.checkedScope = true ↔
      st.seen.contains url = false) ∧
    ((step env s a rp st url rest).2.branch = Branch.outOfScope ↔
      (st.seen.contains url = false ∧ same_domain url s = false)) ∧
    ((step env s a rp st url rest).2.checkedRobots = true ↔
      (st.seen.contains url = false ∧ same_domain url s = true)) ∧
    ((step env s a rp st url rest).2.branch = Branch.robotsDenied ↔
      (st.seen.contains url = false ∧ same_domain url s = true ∧
       robotsDenies rp a url = true)) ∧
    ((step env s a rp st url rest).2.checkedBinary = true ↔
      (st.seen.contains url = false ∧ same_domain url s = true ∧
       robotsDenies rp a url = false)) ∧
    ((step env s a rp st url rest).2.branch = Branch.binary ↔
      (st.seen.contains url = false ∧ same_domain url s = true ∧
       robotsDenies rp a url = false ∧ looks_like_binary url = true)) ∧
    ((step env s a rp st url rest).2.fetched = true ↔
      (st.seen.contains url = false ∧ same_domain url s = true ∧
       robotsDenies rp a url = false ∧ looks_like_binary url = false)) ∧
    ((step env s a rp st url rest).2.extracted = true ↔
      (step env s a rp st url rest).2.branch = Branch.saved) := by
  cases hd : st.seen.contains url with
  | true =>
    rw [step_dup env s a rp st url rest hd]
    simp [hd]
  | false =>
    have hd' : url ∉ st.seen := by simpa using hd
    simp only [step, hd]
    cases hs : same_domain url s with
    | false => simp [hd, hd', hs]
    | true =>
      cases hr : robotsDenies rp a url with
      | true => simp [hd, hd', hs, hr]
      | false =>
        cases hb : looks_like_binary url with
        | true => simp [hd, hd', hs, hr, hb]
        | false =>
          cases hf : env.pageFetch url with
          | err => simp [hd, hd', hs, hr, hb, hf]
          | ok r =>
            by_cases h200 : r.status = 200
            · cases hh : is_html_response r with
              | true => simp [hd, hd', hs, hr, hb, hf, h200, hh]
              | false => simp [hd, hd', hs, hr, hb, hf, h200, hh]
            · have hb200 : (r.status != 200) = true := by
                simpa [bne_iff_ne] using h200
              simp [hd, hd', hs, hr, hb, hf, hb200]

/-- Claim C3: a URL that reaches the fetch step is extracted and persisted
exactly when the response has status 200 and an HTML content type; a fetch
exception, a non-200 status, and a non-HTML content type each map to their
own terminal skip with no extraction call, no file written and no manifest
record. -/
theorem c3_classify_extract_persist (env : Env) (s a : String)
    (rp : RobotFileParser) (st : CrawlState) (url : String) (rest : List String)
    (hd : st.seen.contains url = false)
    (hs : same_domain url s = true)
    (hr : robotsDenies rp a url = false)
    (hb : looks_like_binary url = false) :
    (∀ r, env.pageFetch url = FetchOutcome.ok r → r.status = 200 →
       is_html_response r = true →
       (step env s a rp st url rest).2.branch = Branch.saved ∧
       (step env s a rp st url rest).2.extracted = true ∧
       (step env s a rp st url rest).2.wroteFile = true ∧
       (step env s a rp st url rest).2.manifestAppended = true) ∧
    (env.pageFetch url = FetchOutcome.err →
       (step env s a rp st url rest).2.branch = Branch.fetchError ∧
       (step env s a rp st url rest).2.extracted = false ∧
       (step env s a rp st url rest).2.wroteFile = false ∧
       (step env s a rp st url rest).2.manifestAppended = false) ∧
    (∀ r, env.pageFetch url = FetchOutcome.ok r → r.status ≠ 200 →
       (step env s a rp st url rest).2.branch = Branch.non200 ∧
       (step env s a rp st url rest).2.extracted = false ∧
       (step env s a rp st url rest).2.wroteFile = false ∧
       (step env s a rp st url rest).2.manifestAppended = false) ∧
    (∀ r, env.pageFetch url = FetchOutcome.ok r → r.status = 200 →
       is_html_response r = false →
       (step env s a rp st url rest).2.branch = Branch.nonHtml ∧
       (step env s a rp st url rest).2.extracted = false ∧
       (step env s a rp st url rest).2.wroteFile = false ∧
       (step env s a rp st url rest).2.manifestAppended = false) := by
  have hd' : url ∉ st.seen := by simpa using hd
  refine ⟨?_, ?_, ?_, ?_⟩
  · intro r hf h200 hh
    simp [step, hd, hd', hs, hr, hb, hf, h200, hh]
  · intro hf
    simp [step, hd, hd', hs, hr, hb, hf]
  · intro r hf h200
    have hb200 : (r.status != 200) = true := by simpa [bne_iff_ne] using h200
    simp [step, hd, hd', hs, hr, hb, hf, hb200]
  · intro r hf h200 hh
    simp [step, hd, hd', hs, hr, hb, hf, h200, hh]

/-- Witness for claim C3: on the concrete site `envA` the start page (status
200, `text/html`) is saved with extraction and persistence, and on `envPdf`
(status 200, `application/pdf`) the same URL is skipped as non-HTML with no
extraction. -/
theorem c3_witness_saved_and_pdf_skip :
    (step envA "http://h/s" USER_AGENT rpOk stInit "http://h/s" []).2.branch =
      Branch.saved ∧
    (step envA "http://h/s" USER_AGENT rpOk stInit "http://h/s" []).2.wroteFile =
      true ∧
    (step envPdf "http://h/s" USER_AGENT rpOk stInit "http://h/s" []).2.branch =
      Branch.nonHtml ∧
    (step envPdf "http://h/s" USER_AGENT rpOk stInit "http://h/s" []).2.extracted =
      false := by
  have h1 := c3_classify_extract_persist envA "http://h/s" USER_AGENT rpOk stInit
    "http://h/s" [] (by decide) (by decide) (by decide) (by decide)
  have h2 := c3_classify_extract_persist envPdf "http://h/s" USER_AGENT rpOk stInit
    "http://h/s" [] (by decide) (by decide) (by decide) (by decide)
  have hA := h1.1 ⟨200, some "text/html", "A"⟩ rfl rfl (by decide)
  have hP := h2.2.2.2 ⟨200, some "application/pdf", "P"⟩ rfl rfl (by decide)
  exact ⟨hA.1, hA.2.2.1, hP.1, hP.2.1⟩

/-- Claim C4: the saved-page count never exceeds the configured cap, the
manifest record count equals the saved-page count, the command-line entry
point caps the requested page budget at 20 so its runs never save more
than 20 pages, and the loop runs to exactly the state where the frontier
is empty or the counter has reached the cap. -/
theorem c4_page_cap_and_termination (env : Env) (smFuel : Nat)
    (start_url : String) (maxPages requested : Nat) (use_sitemap : Bool) :
    (∀ loopFuel,
      (crawl_peo env smFuel loopFuel start_url maxPages use_sitemap).final.count ≤
        maxPages) ∧
    (∀ loopFuel,
      ((crawl_peo env smFuel loopFuel start_url maxPages use_sitemap).traces.filter
        (fun tr => tr.manifestAppended)).length =
      (crawl_peo env smFuel loopFuel start_url maxPages use_sitemap).final.count) ∧
    mainMaxPages requested ≤ 20 ∧
    (∀ loopFuel,
      (main_model env smFuel loopFuel start_url requested use_sitemap).final.count ≤
        20) ∧
    (∃ n, ((crawl_peo env smFuel n start_url maxPages use_sitemap).final.queue = [] ∨
           (crawl_peo env smFuel n start_url maxPages use_sitemap).final.count =
             maxPages) ∧
      ∀ k, crawl_peo env smFuel (n + k) start_url maxPages use_sitemap =
           crawl_peo env smFuel n start_url maxPages use_sitemap) := by
  refine ⟨?_, ?_, Nat.min_le_right requested 20, ?_, ?_⟩
  · intro loopFuel
    rw [crawl_peo_def]
    exact loop_count_le env start_url USER_AGENT (load_robots env.robotsRead)
      maxPages loopFuel _ (Nat.zero_le _)
  · intro loopFuel
    rw [crawl_peo_def]
    have h := loop_count_eq env start_url USER_AGENT (load_robots env.robotsRead)
      maxPages loopFuel
      { queue := if use_sitemap then
          seedQueue env smFuel (load_robots env.robotsRead) start_url
        else [normalize_url start_url], seen := [], count := 0 }
    simpa using h.symm
  · intro loopFuel
    have h : (main_model env smFuel loopFuel start_url requested use_sitemap).final.count ≤
        mainMaxPages requested := by
      show (crawl_peo env smFuel loopFuel start_url (mainMaxPages requested)
        use_sitemap).final.count ≤ mainMaxPages requested
      rw [crawl_peo_def]
      exact loop_count_le env start_url USER_AGENT (load_robots env.robotsRead)
        (mainMaxPages requested) loopFuel _ (Nat.zero_le _)
    exact h.trans (Nat.min_le_right requested 20)
  · obtain ⟨n, hstop, hstab⟩ := loop_reaches env start_url USER_AGENT
      (load_robots env.robotsRead) maxPages maxPages
      (if use_sitemap then
          seedQueue env smFuel (load_robots env.robotsRead) start_url
        else [normalize_url start_url]).length
      { queue := if use_sitemap then
          seedQueue env smFuel (load_robots env.robotsRead) start_url
        else [normalize_url start_url], seen := [], count := 0 }
      (by simp) (Nat.le_refl _)
    refine ⟨n, ?_, ?_⟩
    · rcases hstop with h | h
      · left
        rw [crawl_peo_def]
        exact h
      · right
        rw [crawl_peo_def]
        exact Nat.le_antisymm
          (loop_count_le env start_url USER_AGENT (load_robots env.robotsRead)
            maxPages n _ (Nat.zero_le _)) h
    · intro k
      rw [crawl_peo_def, crawl_peo_def, hstab k]

end Crawler
